import Mathlib

/-! Verification development for the software STL-to-PNG rasterizer
(`render_stl_png.py`).  The Python source is shallowly embedded over the
rationals: every Python float value is modelled as a `ℚ`, decimal literals
are taken at their exact decimal value, `math.sqrt` (which has no exact
rational counterpart) is threaded through as an explicit function
parameter `s : ℚ → ℚ`, Python `int()` truncation is `pyInt`, Python
`round()` (round-half-to-even) is `pyRound`, raw file bytes are
`List ℕ`, and Python exceptions become `Except` errors. -/

namespace Rstl

/-- Vector of three rational coordinates, the embedding of the `Vec3`
float triples of the source. -/
structure V3 where
  x : ℚ
  y : ℚ
  z : ℚ
deriving DecidableEq, Repr

/-- Integer RGB color triple. -/
structure RGB where
  r : ℤ
  g : ℤ
  b : ℤ
deriving DecidableEq, Repr

/-- Componentwise vector addition (`v_add`, line 27). -/
def v_add (a b : V3) : V3 := ⟨a.x + b.x, a.y + b.y, a.z + b.z⟩

/-- Componentwise vector subtraction (`v_sub`, line 31). -/
def v_sub (a b : V3) : V3 := ⟨a.x - b.x, a.y - b.y, a.z - b.z⟩

/-- Scalar multiplication (`v_mul`, line 35). -/
def v_mul (a : V3) (c : ℚ) : V3 := ⟨a.x * c, a.y * c, a.z * c⟩

/-- Dot product (`v_dot`, line 39). -/
def v_dot (a b : V3) : ℚ := a.x * b.x + a.y * b.y + a.z * b.z

/-- Cross product (`v_cross`, line 43). -/
def v_cross (a b : V3) : V3 :=
  ⟨a.y * b.z - a.z * b.y, a.z * b.x - a.x * b.z, a.x * b.y - a.y * b.x⟩

/-- Vector length (`v_len`, line 51): `sqrt(dot(a, a))`, where the square
root function `s` models `math.sqrt`. -/
def v_len (s : ℚ → ℚ) (a : V3) : ℚ := s (v_dot a a)

/-- Normalization (`v_norm`, lines 55-59): the zero vector whenever the
length is at most `1e-12`, otherwise the componentwise quotient by the
length. -/
def v_norm (s : ℚ → ℚ) (a : V3) : V3 :=
  let l := v_len s a
  if l ≤ 1e-12 then ⟨0, 0, 0⟩ else ⟨a.x / l, a.y / l, a.z / l⟩

/-- Clamp to the unit interval (`clamp01`, lines 62-63). -/
def clamp01 (x : ℚ) : ℚ := if x < 0 then 0 else if 1 < x then 1 else x

/-- Python `int()` applied to a float: truncation toward zero. -/
def pyInt (q : ℚ) : ℤ := if q < 0 then -Int.floor (-q) else Int.floor q

/-- Python `round()` on a float: round half to even. -/
def pyRound (q : ℚ) : ℤ :=
  let f := Int.floor q
  let r := q - f
  if r < 1 / 2 then f
  else if 1 / 2 < r then f + 1
  else if f % 2 = 0 then f else f + 1

/-- Alpha blending of two colors (`blend_rgb`, lines 340-346). -/
def blend_rgb (base over : RGB) (alpha : ℚ) : RGB :=
  let a := clamp01 alpha
  ⟨pyInt ((base.r : ℚ) * (1 - a) + (over.r : ℚ) * a),
   pyInt ((base.g : ℚ) * (1 - a) + (over.g : ℚ) * a),
   pyInt ((base.b : ℚ) * (1 - a) + (over.b : ℚ) * a)⟩

/-- Shade factor computed by the rasterizer inner loop (lines 603-607)
from the raw dot product of the interpolated unit normal with the light
direction: `ndotl = clamp01(dot)`, `shade = clamp01(0.20 + 0.90 * ndotl)`. -/
def shadeOf (d : ℚ) : ℚ := clamp01 (0.2 + 0.9 * clamp01 d)

/-- Shade factor as the specification words it:
`clamp01(ambient + diffuse_strength * max(0, dot))` with ambient `0.20`
and diffuse strength `0.90`.  Second definition kept for comparison with
`shadeOf`, which comes from the source. -/
def shadeOfSpec (d : ℚ) : ℚ := clamp01 (0.2 + 0.9 * max 0 d)

/-- Final pixel color of the rasterizer (lines 609-611): each base color
channel times the shade factor, truncated by `int()`. -/
def shadedColor (base : RGB) (d : ℚ) : RGB :=
  ⟨pyInt ((base.r : ℚ) * shadeOf d),
   pyInt ((base.g : ℚ) * shadeOf d),
   pyInt ((base.b : ℚ) * shadeOf d)⟩

/-- A triangle: three vertices in source order (`Tri`, lines 85-89). -/
structure Tri where
  a : V3
  b : V3
  c : V3
deriving DecidableEq, Repr

/-- Errors raised by the mesh loader, one constructor per distinct
`ValueError` message of the source. -/
inductive ParseErr where
  /-- Message of line 123: no triangles parsed from ASCII STL. -/
  | emptyMeshAscii
  /-- Message of line 148: no triangles parsed from binary STL. -/
  | emptyMeshBinary
  /-- Message of line 129: STL file too small. -/
  | fileTooSmall
  /-- The tuple unpacking of line 114 fails: the line has a number of
  whitespace-separated fields different from four. -/
  | badVertexLine
  /-- One of the `float()` calls of line 115 fails. -/
  | badFloat
deriving DecidableEq, Repr

/-- Boolean prefix test on byte or code-point lists. -/
def listStartsWith : List ℕ → List ℕ → Bool
  | [], _ => true
  | _ :: _, [] => false
  | p :: ps, l :: ls => p == l && listStartsWith ps ls

/-- Boolean substring test (Python `in` on bytes). -/
def listHasSub (needle : List ℕ) : List ℕ → Bool
  | [] => needle.isEmpty
  | l :: ls => listStartsWith needle (l :: ls) || listHasSub needle ls

/-- ASCII whitespace bytes stripped by Python `bytes.lstrip()`. -/
def asciiWs : List ℕ := [9, 10, 11, 12, 13, 32]

/-- Python `bytes.lstrip()`. -/
def bytesLStrip (l : List ℕ) : List ℕ := l.dropWhile (fun b => asciiWs.contains b)

/-- The bytes of the token `solid`. -/
def kwSolid : List ℕ := [115, 111, 108, 105, 100]

/-- The bytes of the token `facet`. -/
def kwFacet : List ℕ := [102, 97, 99, 101, 116]

/-- The code points of the line prefix `vertex ` (with trailing space). -/
def kwVertexSp : List ℕ := [118, 101, 114, 116, 101, 120, 32]

/-- ASCII detection rule of `read_stl` (lines 98-99): the first 80 bytes,
after stripping leading ASCII whitespace, start with `solid`, and `facet`
occurs within the first 4096 bytes. -/
def detectAscii (data : List ℕ) : Bool :=
  listStartsWith kwSolid (bytesLStrip (data.take 80)) && listHasSub kwFacet (data.take 4096)

/-- Whether a byte is a UTF-8 continuation byte. -/
def contB (c : ℕ) : Bool := 128 ≤ c && c ≤ 191

/-- Admissible first continuation byte of a three-byte UTF-8 sequence. -/
def cont3First (b c : ℕ) : Bool :=
  if b = 224 then 160 ≤ c && c ≤ 191
  else if b = 237 then 128 ≤ c && c ≤ 159
  else contB c

/-- Admissible first continuation byte of a four-byte UTF-8 sequence. -/
def cont4First (b c : ℕ) : Bool :=
  if b = 240 then 144 ≤ c && c ≤ 191
  else if b = 244 then 128 ≤ c && c ≤ 143
  else contB c

/-- One step of UTF-8 decoding: given a lead byte and the following
bytes, return the decoded code point (or nothing when the byte cannot
begin a valid sequence here) and how many following bytes it consumed. -/
def utf8Step (b : ℕ) (rest : List ℕ) : Option ℕ × ℕ :=
  if b < 128 then (some b, 0)
  else if 194 ≤ b && b ≤ 223 then
    match rest with
    | c1 :: _ =>
      if contB c1 then (some ((b - 192) * 64 + (c1 - 128)), 1) else (none, 0)
    | _ => (none, 0)
  else if 224 ≤ b && b ≤ 239 then
    match rest with
    | c1 :: c2 :: _ =>
      if cont3First b c1 && contB c2 then
        (some ((b - 224) * 4096 + (c1 - 128) * 64 + (c2 - 128)), 2)
      else (none, 0)
    | _ => (none, 0)
  else if 240 ≤ b && b ≤ 244 then
    match rest with
    | c1 :: c2 :: c3 :: _ =>
      if cont4First b c1 && contB c2 && contB c3 then
        (some ((b - 240) * 262144 + (c1 - 128) * 4096 + (c2 - 128) * 64 + (c3 - 128)), 3)
      else (none, 0)
    | _ => (none, 0)
  else (none, 0)

/-- Worker for `utf8Decode`, structurally recursive on a fuel argument
(one unit per input byte suffices, since every step consumes at least the
lead byte). -/
def utf8DecodeAux : ℕ → List ℕ → List ℕ
  | 0, _ => []
  | _, [] => []
  | fuel + 1, b :: rest =>
    match utf8Step b rest with
    | (some cp, k) => cp :: utf8DecodeAux fuel (rest.drop k)
    | (none, _) => utf8DecodeAux fuel rest

/-- Python `bytes.decode("utf-8", errors="ignore")` (line 101), modelled
as a byte-list to code-point-list map.  Valid UTF-8 sequences decode as
usual; bytes that cannot begin a valid sequence at the current position
are dropped, which yields the same output as CPython's ignore handler. -/
def utf8Decode (l : List ℕ) : List ℕ := utf8DecodeAux l.length l

/-- Code points for which Python `str.isspace()` holds; `str.strip()` and
no-argument `str.split()` use this set. -/
def pySpaceCp : List ℕ :=
  [9, 10, 11, 12, 13, 28, 29, 30, 31, 32, 133, 160, 5760,
   8192, 8193, 8194, 8195, 8196, 8197, 8198, 8199, 8200, 8201, 8202,
   8232, 8233, 8239, 8287, 12288]

/-- Python whitespace test on a code point. -/
def pyIsSpace (c : ℕ) : Bool := pySpaceCp.contains c

/-- Line-boundary code points of Python `str.splitlines()` (besides the
combined `\r\n` pair handled separately). -/
def lineBreakCp : List ℕ := [10, 11, 12, 13, 28, 29, 30, 133, 8232, 8233]

/-- Worker for `pySplitlines`, carrying the current line reversed. -/
def pySplitlinesAux : List ℕ → List ℕ → List (List ℕ)
  | [], cur => if cur.isEmpty then [] else [cur.reverse]
  | 13 :: 10 :: rest, cur => cur.reverse :: pySplitlinesAux rest []
  | c :: rest, cur =>
    if lineBreakCp.contains c then cur.reverse :: pySplitlinesAux rest []
    else pySplitlinesAux rest (c :: cur)

/-- Python `str.splitlines()` on code points. -/
def pySplitlines (l : List ℕ) : List (List ℕ) := pySplitlinesAux l []

/-- Python `str.strip()` with no argument. -/
def pyStrip (l : List ℕ) : List ℕ :=
  ((l.dropWhile pyIsSpace).reverse.dropWhile pyIsSpace).reverse

/-- Worker for `pySplitWs`, carrying the current token reversed. -/
def pySplitWsAux : List ℕ → List ℕ → List (List ℕ)
  | [], cur => if cur.isEmpty then [] else [cur.reverse]
  | c :: rest, cur =>
    if pyIsSpace c then
      if cur.isEmpty then pySplitWsAux rest [] else cur.reverse :: pySplitWsAux rest []
    else pySplitWsAux rest (c :: cur)

/-- Python `str.split()` with no argument: split on whitespace runs. -/
def pySplitWs (l : List ℕ) : List (List ℕ) := pySplitWsAux l []

/-- Decimal digit test on a code point. -/
def isDigitCp (c : ℕ) : Bool := 48 ≤ c && c ≤ 57

/-- Value of a list of decimal digit code points. -/
def digitsToNat (l : List ℕ) : ℕ := l.foldl (fun a c => a * 10 + (c - 48)) 0

/-- Parse a nonempty all-digit token as an integer. -/
def parseUDigitsAll (l : List ℕ) : Option ℤ :=
  if l.isEmpty then none
  else if l.all isDigitCp then some (digitsToNat l) else none

/-- Parse an optionally signed nonempty digit string. -/
def parseSignedDigits : List ℕ → Option ℤ
  | 43 :: r => parseUDigitsAll r
  | 45 :: r => (parseUDigitsAll r).map (fun n => -n)
  | r => parseUDigitsAll r

/-- Parse an unsigned decimal mantissa (digits, optionally with one
decimal point; at least one digit overall), returning its value and the
unconsumed rest. -/
def parseUDec (l : List ℕ) : Option (ℚ × List ℕ) :=
  let ip := l.takeWhile isDigitCp
  let r1 := l.dropWhile isDigitCp
  match r1 with
  | 46 :: r2 =>
    let fp := r2.takeWhile isDigitCp
    let r3 := r2.dropWhile isDigitCp
    if ip.isEmpty && fp.isEmpty then none
    else some ((digitsToNat ip : ℚ) + (digitsToNat fp : ℚ) / (10 : ℚ) ^ fp.length, r3)
  | _ => if ip.isEmpty then none else some ((digitsToNat ip : ℚ), r1)

/-- Parse the exponent part: nothing, or `e`/`E` followed by an
optionally signed digit string that consumes the rest of the token. -/
def parseExp : List ℕ → Option ℤ
  | [] => some 0
  | 101 :: r => parseSignedDigits r
  | 69 :: r => parseSignedDigits r
  | _ => none

/-- Python `float()` on a token, modelled for finite decimal literals at
their exact rational value (the source rounds to binary64; the special
spellings `inf`/`nan` and digit-group underscores are not modelled). -/
def pyFloat (l : List ℕ) : Option ℚ :=
  let sl : ℚ × List ℕ :=
    match l with
    | 43 :: r => (1, r)
    | 45 :: r => (-1, r)
    | r => (1, r)
  match parseUDec sl.2 with
  | none => none
  | some (m, rest) =>
    match parseExp rest with
    | none => none
    | some e => some (sl.1 * m * (10 : ℚ) ^ e)

/-- Line scan of `read_stl_ascii` (lines 109-121): each stripped line that
begins with `vertex ` is split into exactly four fields whose last three
parse as floats and contribute one vertex; every third vertex closes a
triangle; a trailing group of fewer than three vertices is dropped.
Failures of the unpacking or of `float()` become errors, which the caller
`read_stl` turns into a binary-parse fallback. -/
def asciiScanLoop : List (List ℕ) → List V3 → List Tri → Except ParseErr (List Tri)
  | [], _, tris => .ok tris
  | line :: rest, verts, tris =>
    let l := pyStrip line
    if listStartsWith kwVertexSp l then
      match pySplitWs l with
      | [_, xs, ys, zs] =>
        match pyFloat xs, pyFloat ys, pyFloat zs with
        | some x, some y, some z =>
          match verts with
          | [va, vb] => asciiScanLoop rest [] (tris ++ [⟨va, vb, ⟨x, y, z⟩⟩])
          | _ => asciiScanLoop rest (verts ++ [⟨x, y, z⟩]) tris
        | _, _, _ => .error .badFloat
      | _ => .error .badVertexLine
    else asciiScanLoop rest verts tris

/-- `read_stl_ascii` (lines 108-124) on decoded code points: run the line
scan and fail with the ASCII empty-mesh error when no triangle results. -/
def read_stl_ascii_model (cps : List ℕ) : Except ParseErr (List Tri) :=
  match asciiScanLoop (pySplitlines cps) [] [] with
  | .error e => .error e
  | .ok tris => if tris.isEmpty then .error .emptyMeshAscii else .ok tris

/-- Little-endian 32-bit unsigned integer read at a byte offset
(`struct.unpack_from("<I", ...)`). -/
def leU32 (data : List ℕ) (off : ℕ) : ℕ :=
  data.getD off 0 + 256 * (data.getD (off + 1) 0 + 256 * (data.getD (off + 2) 0 + 256 * data.getD (off + 3) 0))

/-- Exact rational value of an IEEE-754 binary32 bit pattern
(`struct.unpack` of `<f`).  Infinities and NaNs, which are not rational,
are mapped to `0`; no claim in this development inspects coordinate
values of binary triangles, only their count. -/
def f32ToRat (bits : ℕ) : ℚ :=
  let b : ℕ := bits % 2 ^ 32
  let sgn : ℚ := if b / 2 ^ 31 = 1 then -1 else 1
  let e : ℕ := b / 2 ^ 23 % 2 ^ 8
  let m : ℕ := b % 2 ^ 23
  if e = 255 then 0
  else if e = 0 then sgn * (m : ℚ) / (2 : ℚ) ^ (149 : ℕ)
  else sgn * ((2 ^ 23 + m : ℕ) : ℚ) * (2 : ℚ) ^ ((e : ℤ) - 150)

/-- One little-endian binary32 float field at a byte offset. -/
def parseF32 (data : List ℕ) (off : ℕ) : ℚ := f32ToRat (leU32 data off)

/-- One 50-byte binary STL record at a byte offset (lines 143-145): the
12-byte facet normal and the 2-byte attribute are ignored, the nine
floats at offsets 12..47 form the three vertices. -/
def parseRecTri (data : List ℕ) (off : ℕ) : Tri :=
  ⟨⟨parseF32 data (off + 12), parseF32 data (off + 16), parseF32 data (off + 20)⟩,
   ⟨parseF32 data (off + 24), parseF32 data (off + 28), parseF32 data (off + 32)⟩,
   ⟨parseF32 data (off + 36), parseF32 data (off + 40), parseF32 data (off + 44)⟩⟩

/-- Record loop of `read_stl_binary` (lines 138-146): parse up to `k`
records starting at `off`, stopping early if a whole record no longer
fits. -/
def binLoop (data : List ℕ) : ℕ → ℕ → List Tri → List Tri
  | 0, _, acc => acc
  | k + 1, off, acc =>
    if off + 50 > data.length then acc
    else binLoop data k (off + 50) (acc ++ [parseRecTri data off])

/-- `read_stl_binary` (lines 127-149): needs 84 bytes, reads the declared
count at offset 80, clamps it to the number of complete 50-byte records
when it would overrun the buffer, parses the records, and fails with the
binary empty-mesh error when none result. -/
def read_stl_binary_model (data : List ℕ) : Except ParseErr (List Tri) :=
  if data.length < 84 then .error .fileTooSmall
  else
    let n := leU32 data 80
    let n2 := if 84 + n * 50 > data.length then (data.length - 84) / 50 else n
    let tris := binLoop data n2 84 []
    if tris.isEmpty then .error .emptyMeshBinary else .ok tris

/-- Number of complete 50-byte records available after the 84-byte
header. -/
def availRecords (data : List ℕ) : ℕ := (data.length - 84) / 50

/-- `read_stl` (lines 92-105): when the ASCII detection rule holds,
attempt the ASCII parse and fall back to the binary parse on any failure;
otherwise parse as binary directly. -/
def read_stl_model (data : List ℕ) : Except ParseErr (List Tri) :=
  if detectAscii data then
    match read_stl_ascii_model (utf8Decode data) with
    | .ok tris => .ok tris
    | .error _ => read_stl_binary_model data
  else read_stl_binary_model data

/-- Boolean success test on a loader result. -/
def isOkE (e : Except ParseErr (List Tri)) : Bool :=
  match e with
  | .ok _ => true
  | .error _ => false

/-- Effect skeleton of `render` (lines 408-615): the first statement
parses the STL (line 433); everything afterwards, up to and including the
image save of line 615, runs only when parsing succeeded and is abstracted
here as the pure pipeline `g` producing the written image.  When parsing
raises, the exception propagates and no output value is produced, so no
file is created or saved. -/
def render_model (g : List Tri → List RGB) (data : List ℕ) : Except ParseErr (List RGB) :=
  (read_stl_model data).map g

/-- A depth-buffer entry: `none` stands for `float("inf")` (no surface
drawn yet), `some z` for a written camera-space depth. -/
abbrev Depth := Option ℚ

/-- The strict depth test of the source (`z >= zbuf[yi][xi] → skip`,
lines 402 and 591, in its passing direction): `z` passes against the
current entry exactly when `z` is numerically smaller, and always passes
against `inf`. -/
def depthLT (z : ℚ) : Depth → Bool
  | none => true
  | some w => z < w

/-- The square frame buffer of `render`: side length, pixel colors
(indexed `pix x y` like the source's `pix[x, y]`), and the depth buffer
(indexed `zbuf y x` like the source's `zbuf[yi][xi]`). -/
structure Canvas where
  size : ℤ
  pix : ℤ → ℤ → RGB
  zbuf : ℤ → ℤ → Depth

/-- Fresh frame buffer of `render` (lines 478 and 482): every pixel holds
the background color and every depth entry is `+inf`. -/
def initCanvas (size : ℤ) (bg : RGB) : Canvas :=
  ⟨size, fun _ _ => bg, fun _ _ => none⟩

/-- Write one pixel color, leaving the depth buffer untouched. -/
def setPix (cv : Canvas) (x y : ℤ) (col : RGB) : Canvas :=
  { cv with pix := fun X Y => if X = x ∧ Y = y then col else cv.pix X Y }

/-- The integers from `lo` to `hi` inclusive (empty when `hi < lo`),
modelling `range(lo, hi + 1)`. -/
def intRange (lo hi : ℤ) : List ℤ := (List.range (hi + 1 - lo).toNat).map (fun k => lo + k)

/-- The multiples of `step` below `n`, modelling `range(0, n, step)` for
positive `step`. -/
def stepRange (n step : ℤ) : List ℤ :=
  (List.range (((n + step - 1) / step).toNat)).map (fun k => k * step)

/-- `draw_grid` (lines 349-365): overwrite whole pixel columns at every
`step`-th x and whole rows at every `step`-th y with the background/grid
blend.  The depth buffer is not consulted or modified. -/
def draw_grid (cv : Canvas) (bg grid_rgb : RGB) (step : ℤ) (alpha : ℚ) : Canvas :=
  if step ≤ 0 then cv
  else
    let a := clamp01 alpha
    if a ≤ 0 then cv
    else
      let col := blend_rgb bg grid_rgb a
      let cv1 := (stepRange cv.size step).foldl
        (fun c x => (intRange 0 (cv.size - 1)).foldl (fun c2 y => setPix c2 x y col) c) cv
      (stepRange cv.size step).foldl
        (fun c y => (intRange 0 (cv.size - 1)).foldl (fun c2 x => setPix c2 x y col) c) cv1

/-- Number of interpolation steps of `draw_line_z` (line 389):
`int(max(|dx|, |dy|))`. -/
def lineSteps (p0 p1 : ℚ × ℚ × ℚ) : ℤ :=
  pyInt (max |p1.1 - p0.1| |p1.2.1 - p0.2.1|)

/-- Point sampled at step `i` of `draw_line_z` (lines 394-397): linear
interpolation of x, y and z at parameter `t = i / steps`. -/
def lineAt (p0 p1 : ℚ × ℚ × ℚ) (i : ℕ) : ℚ × ℚ × ℚ :=
  let t : ℚ := (i : ℚ) / ((lineSteps p0 p1 : ℤ) : ℚ)
  (p0.1 + (p1.1 - p0.1) * t, p0.2.1 + (p1.2.1 - p0.2.1) * t, p0.2.2 + (p1.2.2 - p0.2.2) * t)

/-- Body of the step loop of `draw_line_z` (lines 393-405): round the
sampled point to a pixel, skip it when out of bounds or when its
interpolated depth fails the strict depth test, and otherwise alpha-blend
the line color into that pixel.  The depth buffer is never written. -/
def lineStep (p0 p1 : ℚ × ℚ × ℚ) (color : RGB) (a : ℚ) (c : Canvas) (i : ℕ) : Canvas :=
  if pyRound (lineAt p0 p1 i).1 < 0 ∨ c.size ≤ pyRound (lineAt p0 p1 i).1 ∨
     pyRound (lineAt p0 p1 i).2.1 < 0 ∨ c.size ≤ pyRound (lineAt p0 p1 i).2.1 then c
  else if depthLT (lineAt p0 p1 i).2.2
      (c.zbuf (pyRound (lineAt p0 p1 i).2.1) (pyRound (lineAt p0 p1 i).1)) = false then c
  else setPix c (pyRound (lineAt p0 p1 i).1) (pyRound (lineAt p0 p1 i).2.1)
    (blend_rgb (c.pix (pyRound (lineAt p0 p1 i).1) (pyRound (lineAt p0 p1 i).2.1)) color a)

/-- `draw_line_z` (lines 368-405): the depth-tested line rasterizer. -/
def draw_line_z (cv : Canvas) (p0 p1 : ℚ × ℚ × ℚ) (color : RGB) (alpha : ℚ) : Canvas :=
  let a := clamp01 alpha
  if a ≤ 0 then cv
  else
    let steps := lineSteps p0 p1
    if steps ≤ 0 then cv
    else (List.range (steps.toNat + 1)).foldl (lineStep p0 p1 color a) cv

/-- `project_persp` (lines 329-337): clamp a camera-space point at or
behind the near epsilon to `z = -1e-6`, then perspective-divide. -/
def project_persp (v : V3) (f : ℚ) : ℚ × ℚ × ℚ :=
  let z := if v.z > -1e-6 then -1e-6 else v.z
  (v.x * f / (-z), v.y * f / (-z), z)

/-- `to_px` (lines 485-488): map normalized device coordinates to pixel
coordinates, flipping y so that row 0 is the top. -/
def to_px (size : ℤ) (x y : ℚ) : ℤ × ℤ :=
  (pyInt ((x * (1 / 2) + 1 / 2) * ((size : ℚ) - 1)),
   pyInt (((-y) * (1 / 2) + 1 / 2) * ((size : ℚ) - 1)))

/-- Backface-culling test of the rasterizer (lines 543-546): unless
two-sided mode is on, a face is skipped when the z-component of the
camera-space cross product of its two edge vectors is nonnegative. -/
def backfaceCulled (twoSided : Bool) (a b c : V3) : Bool :=
  if twoSided then false
  else decide (0 ≤ (v_cross (v_sub b a) (v_sub c a)).z)

/-- Barycentric weight `w0` at pixel `(px, py)` (line 584). -/
def baryW0 (x0 y0 x1 y1 x2 y2 px py : ℤ) (denom : ℚ) : ℚ :=
  (((y1 - y2) * (px - x2) + (x2 - x1) * (py - y2) : ℤ) : ℚ) / denom

/-- Barycentric weight `w1` at pixel `(px, py)` (line 585). -/
def baryW1 (x0 y0 x1 y1 x2 y2 px py : ℤ) (denom : ℚ) : ℚ :=
  (((y2 - y0) * (px - x2) + (x0 - x2) * (py - y2) : ℤ) : ℚ) / denom

/-- Camera-space depth interpolated by barycentric weights at a pixel
(line 590): `w0 * za + w1 * zb + w2 * zc`. -/
def interpZ (x0 y0 x1 y1 x2 y2 px py : ℤ) (denom za zb zc : ℚ) : ℚ :=
  baryW0 x0 y0 x1 y1 x2 y2 px py denom * za +
  baryW1 x0 y0 x1 y1 x2 y2 px py denom * zb +
  (1 - baryW0 x0 y0 x1 y1 x2 y2 px py denom - baryW1 x0 y0 x1 y1 x2 y2 px py denom) * zc

/-- Vertex normal interpolated by barycentric weights at a pixel
(lines 595-601, before renormalization). -/
def interpN (x0 y0 x1 y1 x2 y2 px py : ℤ) (denom : ℚ) (na nb nc : V3) : V3 :=
  ⟨baryW0 x0 y0 x1 y1 x2 y2 px py denom * na.x +
     baryW1 x0 y0 x1 y1 x2 y2 px py denom * nb.x +
     (1 - baryW0 x0 y0 x1 y1 x2 y2 px py denom - baryW1 x0 y0 x1 y1 x2 y2 px py denom) * nc.x,
   baryW0 x0 y0 x1 y1 x2 y2 px py denom * na.y +
     baryW1 x0 y0 x1 y1 x2 y2 px py denom * nb.y +
     (1 - baryW0 x0 y0 x1 y1 x2 y2 px py denom - baryW1 x0 y0 x1 y1 x2 y2 px py denom) * nc.y,
   baryW0 x0 y0 x1 y1 x2 y2 px py denom * na.z +
     baryW1 x0 y0 x1 y1 x2 y2 px py denom * nb.z +
     (1 - baryW0 x0 y0 x1 y1 x2 y2 px py denom - baryW1 x0 y0 x1 y1 x2 y2 px py denom) * nc.z⟩

/-- Shaded color of a covered pixel (lines 595-611): renormalize the
interpolated normal and apply the Lambert shade to the base color. -/
def shadePx (s : ℚ → ℚ) (x0 y0 x1 y1 x2 y2 px py : ℤ) (denom : ℚ)
    (na nb nc light : V3) (base : RGB) : RGB :=
  shadedColor base (v_dot (v_norm s (interpN x0 y0 x1 y1 x2 y2 px py denom na nb nc)) light)

/-- Inner pixel loop body of the triangle rasterizer (lines 582-612):
compute the barycentric weights of the pixel, skip it when any weight is
negative (outside the triangle), interpolate the camera-space depth,
apply the depth test `z >= zbuf[py][px] → skip`, and otherwise write the
depth and the Lambert-shaded color of the interpolated renormalized
normal. -/
def facePixel (s : ℚ → ℚ) (x0 y0 x1 y1 x2 y2 : ℤ) (denom za zb zc : ℚ)
    (na nb nc light : V3) (base : RGB) (px py : ℤ) (cv : Canvas) : Canvas :=
  if baryW0 x0 y0 x1 y1 x2 y2 px py denom < 0 ∨
     baryW1 x0 y0 x1 y1 x2 y2 px py denom < 0 ∨
     1 - baryW0 x0 y0 x1 y1 x2 y2 px py denom - baryW1 x0 y0 x1 y1 x2 y2 px py denom < 0 then cv
  else if depthLT (interpZ x0 y0 x1 y1 x2 y2 px py denom za zb zc) (cv.zbuf py px) = false then cv
  else
    { cv with
      zbuf := fun Y X => if Y = py ∧ X = px
        then some (interpZ x0 y0 x1 y1 x2 y2 px py denom za zb zc) else cv.zbuf Y X,
      pix := fun X Y => if X = px ∧ Y = py
        then shadePx s x0 y0 x1 y1 x2 y2 px py denom na nb nc light base else cv.pix X Y }

/-- Per-face body of the rasterizer loop (lines 536-612): backface cull,
project the three camera-space vertices, reject faces wholly outside the
normalized viewport, compute the clamped pixel bounding box and the
barycentric denominator, and run the depth-tested pixel loop. -/
def rasterFace (s : ℚ → ℚ) (twoSided : Bool) (f : ℚ) (light : V3) (base : RGB)
    (a b c na nb nc : V3) (cv : Canvas) : Canvas :=
  if backfaceCulled twoSided a b c then cv
  else
    let pa := project_persp a f
    let pb := project_persp b f
    let pc := project_persp c f
    if ((pa.1 < -2 ∨ 2 < pa.1) ∧ (pb.1 < -2 ∨ 2 < pb.1) ∧ (pc.1 < -2 ∨ 2 < pc.1)) ∨
       ((pa.2.1 < -2 ∨ 2 < pa.2.1) ∧ (pb.2.1 < -2 ∨ 2 < pb.2.1) ∧ (pc.2.1 < -2 ∨ 2 < pc.2.1)) then cv
    else
      let A := to_px cv.size pa.1 pa.2.1
      let B := to_px cv.size pb.1 pb.2.1
      let C := to_px cv.size pc.1 pc.2.1
      let minx := max 0 (min A.1 (min B.1 C.1))
      let maxx := min (cv.size - 1) (max A.1 (max B.1 C.1))
      let miny := max 0 (min A.2 (min B.2 C.2))
      let maxy := min (cv.size - 1) (max A.2 (max B.2 C.2))
      if minx ≥ maxx ∨ miny ≥ maxy then cv
      else
        let denom : ℚ := (((B.2 - C.2) * (A.1 - C.1) + (C.1 - B.1) * (A.2 - C.2) : ℤ) : ℚ)
        if |denom| < 1e-12 then cv
        else
          (intRange miny maxy).foldl
            (fun cy py =>
              (intRange minx maxx).foldl
                (fun cx px =>
                  facePixel s A.1 A.2 B.1 B.2 C.1 C.2 denom pa.2.2 pb.2.2 pc.2.2
                    na nb nc light base px py cx)
                cy)
            cv

/-- The drawing operations `render` performs on the frame and depth
buffers (lines 479-612): the screen-space background grid, a depth-tested
line (ground grid and axis triad segments), and a rasterized mesh face
given by its camera-space vertices and rotated vertex normals. -/
inductive DrawOp where
  | grid (bg gridColor : RGB) (step : ℤ) (alpha : ℚ)
  | line (p0 p1 : ℚ × ℚ × ℚ) (color : RGB) (alpha : ℚ)
  | face (twoSided : Bool) (f : ℚ) (light : V3) (base : RGB) (a b c na nb nc : V3)

/-- Whether a drawing operation is a mesh-face rasterization. -/
def DrawOp.isFace : DrawOp → Bool
  | .face _ _ _ _ _ _ _ _ _ _ => true
  | _ => false

/-- Apply one drawing operation to the frame buffer. -/
def applyOp (s : ℚ → ℚ) (op : DrawOp) (cv : Canvas) : Canvas :=
  match op with
  | .grid bg gcol step alpha => draw_grid cv bg gcol step alpha
  | .line p0 p1 color alpha => draw_line_z cv p0 p1 color alpha
  | .face twoSided f light base a b c na nb nc =>
      rasterFace s twoSided f light base a b c na nb nc cv

/-- `tri_normal` (lines 164-167). -/
def tri_normal (s : ℚ → ℚ) (t : Tri) : V3 :=
  v_norm s (v_cross (v_sub t.b t.a) (v_sub t.c t.a))

/-- `tri_area` (lines 170-173). -/
def tri_area (s : ℚ → ℚ) (t : Tri) : ℚ :=
  1 / 2 * v_len s (v_cross (v_sub t.b t.a) (v_sub t.c t.a))

/-- State of `build_vertex_normals` midway: deduplicated vertices, the
face index triples emitted so far, and the per-vertex normal
accumulators. -/
structure BVN where
  verts : List V3
  faces : List (ℕ × ℕ × ℕ)
  acc : List V3

/-- Index of the first exact match of a vertex in a list, mirroring the
`vmap` dictionary lookup (each vertex maps to the index it was first
assigned). -/
def idxOf (v : V3) : List V3 → Option ℕ
  | [] => none
  | w :: r => if w = v then some 0 else (idxOf v r).map (fun i => i + 1)

/-- `vid` (lines 183-190): return the index of a vertex, appending it
(with a zero accumulator) when it is new. -/
def vid (st : BVN) (v : V3) : BVN × ℕ :=
  match idxOf v st.verts with
  | some i => (st, i)
  | none =>
    ({ st with verts := st.verts ++ [v], acc := st.acc ++ [⟨0, 0, 0⟩] }, st.verts.length)

/-- Per-triangle body of `build_vertex_normals` (lines 192-200): look up
or insert the three vertices, emit the face triple, and add the face
normal scaled by the face area (or by `1.0` for near-zero areas) into the
three accumulators. -/
def bvnStep (s : ℚ → ℚ) (st : BVN) (t : Tri) : BVN :=
  let r1 := vid st t.a
  let r2 := vid r1.1 t.b
  let r3 := vid r2.1 t.c
  let st3 := r3.1
  let st4 := { st3 with faces := st3.faces ++ [(r1.2, r2.2, r3.2)] }
  let n := tri_normal s t
  let ar := tri_area s t
  let w := if ar > 1e-12 then ar else 1
  let acc1 := st4.acc.set r1.2 (v_add (st4.acc.getD r1.2 ⟨0, 0, 0⟩) (v_mul n w))
  let acc2 := acc1.set r2.2 (v_add (acc1.getD r2.2 ⟨0, 0, 0⟩) (v_mul n w))
  let acc3 := acc2.set r3.2 (v_add (acc2.getD r3.2 ⟨0, 0, 0⟩) (v_mul n w))
  { st4 with acc := acc3 }

/-- `build_vertex_normals` (lines 176-203): deduplicate vertices, build
the indexed face list, and return the vertices, faces, and normalized
accumulated vertex normals. -/
def build_vertex_normals (s : ℚ → ℚ) (tris : List Tri) :
    List V3 × List (ℕ × ℕ × ℕ) × List V3 :=
  let st := tris.foldl (bvnStep s) ⟨[], [], []⟩
  (st.verts, st.faces, st.acc.map (v_norm s))

deriving instance DecidableEq for Except

/-! Helper lemmas. -/

/-- The inner clamp of the dot product lies in the unit interval. -/
lemma clamp01_mem (d : ℚ) : 0 ≤ clamp01 d ∧ clamp01 d ≤ 1 := by
  unfold clamp01
  split_ifs with h1 h2
  · norm_num
  · norm_num
  · constructor <;> linarith

/-- The source's clamp of the dot product and the spec's `max 0` agree
once pushed through the outer shade clamp. -/
lemma shadeOf_eq_spec (d : ℚ) : shadeOf d = shadeOfSpec d := by
  unfold shadeOf shadeOfSpec clamp01
  rcases lt_or_le d 0 with h | h
  · rw [if_pos h, max_eq_left h.le]
  · rw [if_neg (not_lt.2 h), max_eq_right h]
    rcases lt_or_le 1 d with h1 | h1
    · rw [if_pos h1]
      have e1 : ¬ ((0.2 : ℚ) + 0.9 * 1 < 0) := by norm_num
      have e2 : (1 : ℚ) < 0.2 + 0.9 * 1 := by norm_num
      have e3 : ¬ ((0.2 : ℚ) + 0.9 * d < 0) := by nlinarith
      have e4 : (1 : ℚ) < 0.2 + 0.9 * d := by nlinarith
      rw [if_neg e1, if_pos e2, if_neg e3, if_pos e4]
    · rw [if_neg (not_lt.2 h1)]

/-- The shade factor lies in `[0.2, 1]`. -/
lemma shadeOf_bounds (d : ℚ) : 1 / 5 ≤ shadeOf d ∧ shadeOf d ≤ 1 := by
  unfold shadeOf clamp01
  split_ifs <;> constructor <;> linarith

/-- Truncation of a rational at least one is at least one. -/
lemma one_le_pyInt (q : ℚ) (h : 1 ≤ q) : 1 ≤ pyInt q := by
  unfold pyInt
  rw [if_neg (not_lt.2 (by linarith : (0 : ℚ) ≤ q))]
  exact Int.le_floor.2 (by exact_mod_cast h)

/-- Reversing the last two vertices negates the z-component of the
camera-space edge cross product. -/
lemma cross_swap_z (a b c : V3) :
    (v_cross (v_sub c a) (v_sub b a)).z = -(v_cross (v_sub b a) (v_sub c a)).z := by
  simp only [v_cross, v_sub]
  ring

/-- A fold preserves any invariant its step function preserves. -/
lemma foldl_inv_mem {α β : Type} (P : α → Prop) (f : α → β → α) :
    ∀ l : List β, (∀ a b, b ∈ l → P a → P (f a b)) → ∀ a, P a → P (l.foldl f a) := by
  intro l
  induction l with
  | nil => intro _ a ha; exact ha
  | cons x xs ih =>
    intro hf a ha
    exact ih (fun a2 b hb => hf a2 b (List.mem_cons_of_mem x hb)) (f a x)
      (hf a x (List.mem_cons_self x xs) ha)

/-- An index returned by `idxOf` is a valid index. -/
lemma idxOf_lt_length (v : V3) : ∀ (l : List V3) (i : ℕ), idxOf v l = some i → i < l.length := by
  intro l
  induction l with
  | nil => intro i h; exact absurd h (by simp [idxOf])
  | cons w r ih =>
    intro i h
    unfold idxOf at h
    by_cases hw : w = v
    · rw [if_pos hw] at h
      injection h with h
      simp only [List.length_cons]
      omega
    · rw [if_neg hw] at h
      rcases Option.map_eq_some'.mp h with ⟨j, hj, hji⟩
      have := ih j hj
      simp only [List.length_cons]
      omega

/-- Facts about one `vid` call: the vertex list only grows, the returned
index is valid for the new vertex list, the face list is untouched, and
the vertex/accumulator length alignment is preserved. -/
lemma vid_facts (st : BVN) (v : V3) :
    st.verts.length ≤ (vid st v).1.verts.length ∧
    (vid st v).2 < (vid st v).1.verts.length ∧
    (vid st v).1.faces = st.faces ∧
    (st.acc.length = st.verts.length →
      (vid st v).1.acc.length = (vid st v).1.verts.length) := by
  unfold vid
  cases hI : idxOf v st.verts with
  | some i =>
    refine ⟨le_refl _, idxOf_lt_length v st.verts i hI, rfl, fun h => h⟩
  | none =>
    refine ⟨by simp, by simp, rfl, fun h => by simp [h]⟩

/-- The invariant the normalizer state maintains: accumulator and vertex
sequences are index-aligned, and all emitted face indices are valid. -/
def BVNInv (st : BVN) : Prop :=
  st.acc.length = st.verts.length ∧
  ∀ fc ∈ st.faces,
    fc.1 < st.verts.length ∧ fc.2.1 < st.verts.length ∧ fc.2.2 < st.verts.length

/-- One triangle step preserves the normalizer invariant. -/
lemma bvnStep_inv (s : ℚ → ℚ) (st : BVN) (t : Tri) (h : BVNInv st) :
    BVNInv (bvnStep s st t) := by
  obtain ⟨f1a, f1b, f1c, f1d⟩ := vid_facts st t.a
  obtain ⟨f2a, f2b, f2c, f2d⟩ := vid_facts (vid st t.a).1 t.b
  obtain ⟨f3a, f3b, f3c, f3d⟩ := vid_facts (vid (vid st t.a).1 t.b).1 t.c
  unfold bvnStep BVNInv
  simp only [List.length_set]
  constructor
  · exact f3d (f2d (f1d h.1))
  · intro fc hfc
    rw [List.mem_append] at hfc
    rcases hfc with hold | hnew
    · rw [f3c, f2c, f1c] at hold
      have hb := h.2 fc hold
      have hle : st.verts.length ≤ (vid (vid (vid st t.a).1 t.b).1 t.c).1.verts.length := by
        calc st.verts.length ≤ (vid st t.a).1.verts.length := f1a
          _ ≤ (vid (vid st t.a).1 t.b).1.verts.length := f2a
          _ ≤ _ := f3a
      exact ⟨by omega, by omega, by omega⟩
    · rw [List.mem_singleton] at hnew
      subst hnew
      dsimp only
      exact ⟨by omega, by omega, by omega⟩

/-- How a drawing step may change a depth entry: leave it alone, or
overwrite it with a value that passes the strict depth test against the
old entry (a numerically strictly smaller depth). -/
def zPres (cv c : Canvas) (X Y : ℤ) : Prop :=
  c.zbuf Y X = cv.zbuf Y X ∨
    ∃ z : ℚ, c.zbuf Y X = some z ∧ depthLT z (cv.zbuf Y X) = true

/-- Passing the strict depth test is transitive along smaller depths. -/
lemma depthLT_trans (z w : ℚ) (d : Depth) (h1 : z < w) (h2 : depthLT w d = true) :
    depthLT z d = true := by
  cases d with
  | none => rfl
  | some u =>
    simp only [depthLT, decide_eq_true_eq] at h2 ⊢
    linarith

/-- One pixel step of the triangle rasterizer respects `zPres`: it either
leaves a depth entry alone or writes a strictly closer value. -/
lemma facePixel_zPres (s : ℚ → ℚ) (x0 y0 x1 y1 x2 y2 : ℤ) (denom za zb zc : ℚ)
    (na nb nc light : V3) (base : RGB) (px py X Y : ℤ) (cv c : Canvas)
    (h : zPres cv c X Y) :
    zPres cv (facePixel s x0 y0 x1 y1 x2 y2 denom za zb zc na nb nc light base px py c) X Y := by
  unfold facePixel
  split_ifs with h1 h2
  · exact h
  · exact h
  · unfold zPres at h ⊢
    dsimp only
    by_cases hxy : Y = py ∧ X = px
    · rw [if_pos hxy]
      obtain ⟨hY, hX⟩ := hxy
      subst hY
      subst hX
      rcases Bool.eq_false_or_eq_true
        (depthLT (interpZ x0 y0 x1 y1 x2 y2 X Y denom za zb zc) (c.zbuf Y X)) with hB | hB
      · right
        refine ⟨_, rfl, ?_⟩
        rcases h with heq | ⟨w, hw, hlt⟩
        · rw [heq] at hB
          exact hB
        · rw [hw] at hB
          simp only [depthLT, decide_eq_true_eq] at hB
          exact depthLT_trans _ w _ hB hlt
      · exact absurd hB h2
    · rw [if_neg hxy]
      exact h

/-- `setPix` never touches the depth buffer. -/
lemma setPix_zbuf (c : Canvas) (x y : ℤ) (col : RGB) : (setPix c x y col).zbuf = c.zbuf := rfl

/-- One line-rasterizer step never touches the depth buffer. -/
lemma lineStep_zbuf (p0 p1 : ℚ × ℚ × ℚ) (color : RGB) (a : ℚ) (c : Canvas) (i : ℕ) :
    (lineStep p0 p1 color a c i).zbuf = c.zbuf := by
  unfold lineStep
  split_ifs <;> rfl

/-- The line rasterizer never touches the depth buffer. -/
lemma draw_line_z_zbuf (cv : Canvas) (p0 p1 : ℚ × ℚ × ℚ) (color : RGB) (alpha : ℚ) :
    (draw_line_z cv p0 p1 color alpha).zbuf = cv.zbuf := by
  simp only [draw_line_z]
  split_ifs with h1 h2
  · rfl
  · rfl
  · refine foldl_inv_mem (fun c => c.zbuf = cv.zbuf)
      (lineStep p0 p1 color (clamp01 alpha))
      (List.range ((lineSteps p0 p1).toNat + 1)) ?_ cv rfl
    intro a2 b _ hp
    rw [lineStep_zbuf]
    exact hp

/-- The screen-space grid never touches the depth buffer. -/
lemma draw_grid_zbuf (cv : Canvas) (bg grid_rgb : RGB) (step : ℤ) (alpha : ℚ) :
    (draw_grid cv bg grid_rgb step alpha).zbuf = cv.zbuf := by
  simp only [draw_grid]
  split_ifs with h1 h2
  · rfl
  · rfl
  · refine foldl_inv_mem (fun c => c.zbuf = cv.zbuf)
      (fun c y => List.foldl (fun c2 x => setPix c2 x y (blend_rgb bg grid_rgb (clamp01 alpha)))
        c (intRange 0 (cv.size - 1)))
      (stepRange cv.size step) ?_ _ ?_
    · intro a2 b _ hp
      refine foldl_inv_mem (fun c => c.zbuf = cv.zbuf)
        (fun c2 x => setPix c2 x b (blend_rgb bg grid_rgb (clamp01 alpha)))
        (intRange 0 (cv.size - 1)) ?_ a2 hp
      intro a3 b2 _ hp2
      exact hp2
    · refine foldl_inv_mem (fun c => c.zbuf = cv.zbuf)
        (fun c x => List.foldl (fun c2 y => setPix c2 x y (blend_rgb bg grid_rgb (clamp01 alpha)))
          c (intRange 0 (cv.size - 1)))
        (stepRange cv.size step) ?_ cv rfl
      intro a2 b _ hp
      refine foldl_inv_mem (fun c => c.zbuf = cv.zbuf)
        (fun c2 y => setPix c2 b y (blend_rgb bg grid_rgb (clamp01 alpha)))
        (intRange 0 (cv.size - 1)) ?_ a2 hp
      intro a3 b2 _ hp2
      exact hp2

/-- Length of the binary record loop result when every requested record
fits in the buffer. -/
lemma binLoop_length (data : List ℕ) :
    ∀ (k off : ℕ) (acc : List Tri), off + 50 * k ≤ data.length →
      (binLoop data k off acc).length = acc.length + k := by
  intro k
  induction k with
  | zero => intro off acc _; simp [binLoop]
  | succ n ih =>
    intro off acc h
    have ho : ¬ (off + 50 > data.length) := by omega
    simp only [binLoop, ho, if_false]
    rw [ih (off + 50) (acc ++ [parseRecTri data off]) (by omega)]
    simp
    omega

/-! Claim theorems. -/

/-- C3 (counterexample): a pixel covered by a triangle and passing the
depth test (the depth buffer is written) is painted fully black when the
base color is the dark-but-nonzero `(4, 4, 4)`, because every channel of
`4 * 0.2` truncates to zero even though the shade factor is `0.2 ≠ 0`. -/
theorem covered_pixel_rendered_fully_black :
    (facePixel (fun q => q) 0 1 1 1 0 0 (-1) (-5) (-5) (-5)
        ⟨0, 0, -1⟩ ⟨0, 0, -1⟩ ⟨0, 0, -1⟩ ⟨0, 0, 1⟩ ⟨4, 4, 4⟩ 0 1
        (initCanvas 2 ⟨9, 9, 9⟩)).pix 0 1 = ⟨0, 0, 0⟩ ∧
    (facePixel (fun q => q) 0 1 1 1 0 0 (-1) (-5) (-5) (-5)
        ⟨0, 0, -1⟩ ⟨0, 0, -1⟩ ⟨0, 0, -1⟩ ⟨0, 0, 1⟩ ⟨4, 4, 4⟩ 0 1
        (initCanvas 2 ⟨9, 9, 9⟩)).zbuf 1 0 = some (-5) ∧
    shadeOf (-1) = 1 / 5 := by
  norm_num [facePixel, baryW0, baryW1, interpZ, interpN, shadePx, depthLT, initCanvas,
    v_norm, v_len, v_dot, shadedColor, shadeOf, clamp01, pyInt]

/-- C3 (amended): for every rasterized pixel the shading factor equals
`clamp01(0.20 + 0.90 * max(0, dot(normal, light)))` and lies in
`[0.20, 1.0]`; each output channel is the base channel times the factor
truncated to an integer; and since the factor never drops below `0.20`, a
channel whose base value is at least `5` never truncates to zero, so such
pixels are never fully black (dimmer base channels can truncate to
black). -/
theorem shade_factor_spec (d : ℚ) (base : RGB) :
    shadeOf d = shadeOfSpec d ∧
    1 / 5 ≤ shadeOf d ∧ shadeOf d ≤ 1 ∧
    shadedColor base d =
      ⟨pyInt ((base.r : ℚ) * shadeOf d), pyInt ((base.g : ℚ) * shadeOf d),
       pyInt ((base.b : ℚ) * shadeOf d)⟩ ∧
    (5 ≤ base.r → 1 ≤ (shadedColor base d).r) ∧
    (5 ≤ base.g → 1 ≤ (shadedColor base d).g) ∧
    (5 ≤ base.b → 1 ≤ (shadedColor base d).b) := by
  obtain ⟨hlb, hub⟩ := shadeOf_bounds d
  refine ⟨shadeOf_eq_spec d, hlb, hub, rfl, ?_, ?_, ?_⟩ <;> intro h5
  · refine one_le_pyInt _ ?_
    have h5q : (5 : ℚ) ≤ (base.r : ℚ) := by exact_mod_cast h5
    nlinarith
  · refine one_le_pyInt _ ?_
    have h5q : (5 : ℚ) ≤ (base.g : ℚ) := by exact_mod_cast h5
    nlinarith
  · refine one_le_pyInt _ ?_
    have h5q : (5 : ℚ) ≤ (base.b : ℚ) := by exact_mod_cast h5
    nlinarith

/-- Witness for C3 at `d = 1/2` and base color `(128, 64, 200)`. -/
theorem shade_factor_spec_witness :
    shadeOf (1 / 2) = shadeOfSpec (1 / 2) ∧
    1 ≤ (shadedColor ⟨128, 64, 200⟩ (1 / 2)).r ∧
    1 ≤ (shadedColor ⟨128, 64, 200⟩ (1 / 2)).g ∧
    1 ≤ (shadedColor ⟨128, 64, 200⟩ (1 / 2)).b := by
  have h := shade_factor_spec (1 / 2) ⟨128, 64, 200⟩
  exact ⟨h.1, h.2.2.2.2.1 (by decide), h.2.2.2.2.2.1 (by decide), h.2.2.2.2.2.2 (by decide)⟩

/-- C6: a triangle whose camera-space edge cross product has negative
z-component passes the backface-culling test; reversing its vertex order
makes it culled; with two-sided mode on, both orders pass. -/
theorem backface_cull_winding (a b c : V3)
    (h : (v_cross (v_sub b a) (v_sub c a)).z < 0) :
    backfaceCulled false a b c = false ∧ backfaceCulled false a c b = true ∧
    backfaceCulled true a b c = false ∧ backfaceCulled true a c b = false := by
  refine ⟨?_, ?_, rfl, rfl⟩
  · show decide (0 ≤ (v_cross (v_sub b a) (v_sub c a)).z) = false
    exact decide_eq_false (not_le.2 h)
  · show decide (0 ≤ (v_cross (v_sub c a) (v_sub b a)).z) = true
    rw [cross_swap_z]
    exact decide_eq_true (by linarith)

/-- Witness for C6 on a concrete camera-facing triangle. -/
theorem backface_cull_winding_witness :
    backfaceCulled false ⟨0, 0, 0⟩ ⟨0, 1, 0⟩ ⟨1, 0, 0⟩ = false ∧
    backfaceCulled false ⟨0, 0, 0⟩ ⟨1, 0, 0⟩ ⟨0, 1, 0⟩ = true ∧
    backfaceCulled true ⟨0, 0, 0⟩ ⟨0, 1, 0⟩ ⟨1, 0, 0⟩ = false ∧
    backfaceCulled true ⟨0, 0, 0⟩ ⟨1, 0, 0⟩ ⟨0, 1, 0⟩ = false :=
  backface_cull_winding ⟨0, 0, 0⟩ ⟨0, 1, 0⟩ ⟨1, 0, 0⟩ (by norm_num [v_cross, v_sub])

/-- C9: normalization is total with no division fault: any vector whose
length is at most the `1e-12` epsilon normalizes to the zero vector, and
any other vector to its componentwise quotient by its length. -/
theorem v_norm_total (s : ℚ → ℚ) (a : V3) :
    (v_len s a ≤ 1e-12 → v_norm s a = ⟨0, 0, 0⟩) ∧
    (1e-12 < v_len s a →
      v_norm s a = ⟨a.x / v_len s a, a.y / v_len s a, a.z / v_len s a⟩) := by
  constructor
  · intro h
    simp only [v_norm]
    rw [if_pos h]
  · intro h
    simp only [v_norm]
    rw [if_neg (not_le.2 h)]

/-- Witness for C9 at the zero vector and at a unit vector (with the
square root taken as the identity, exact on these inputs). -/
theorem v_norm_total_witness :
    v_norm (fun q => q) ⟨0, 0, 0⟩ = ⟨0, 0, 0⟩ ∧
    v_norm (fun q => q) ⟨1, 0, 0⟩ =
      ⟨1 / v_len (fun q => q) ⟨1, 0, 0⟩, 0 / v_len (fun q => q) ⟨1, 0, 0⟩,
       0 / v_len (fun q => q) ⟨1, 0, 0⟩⟩ :=
  ⟨(v_norm_total (fun q => q) ⟨0, 0, 0⟩).1 (by norm_num [v_len, v_dot]),
   (v_norm_total (fun q => q) ⟨1, 0, 0⟩).2 (by norm_num [v_len, v_dot])⟩

/-- C2 (amended): when the detection rule holds but the ASCII line scan
completes with zero triangles, the ASCII parser raises the empty-mesh
error internally, `read_stl` catches it, and the loader's overall result
is that of the binary parser on the same bytes — not the empty-mesh
error. -/
theorem ascii_empty_falls_back_to_binary (data : List ℕ)
    (h1 : detectAscii data = true)
    (h2 : asciiScanLoop (pySplitlines (utf8Decode data)) [] [] = .ok []) :
    read_stl_model data = read_stl_binary_model data := by
  have hA : read_stl_ascii_model (utf8Decode data) = .error .emptyMeshAscii := by
    unfold read_stl_ascii_model
    rw [h2]
    rfl
  simp [read_stl_model, h1, hA]

/-- The eleven bytes of `solid facet`. -/
def exSolidFacet : List ℕ := [115, 111, 108, 105, 100, 32, 102, 97, 99, 101, 116]

/-- C2 (counterexample): the bytes `solid facet` satisfy the detection
rule and their ASCII scan yields zero triangles, yet the loader fails
with the file-too-small error of the binary fallback, not with an
empty-mesh parse error. -/
theorem ascii_empty_not_empty_mesh_error :
    detectAscii exSolidFacet = true ∧
    asciiScanLoop (pySplitlines (utf8Decode exSolidFacet)) [] [] = .ok [] ∧
    read_stl_model exSolidFacet = .error .fileTooSmall ∧
    read_stl_model exSolidFacet ≠ .error .emptyMeshAscii ∧
    read_stl_model exSolidFacet ≠ .error .emptyMeshBinary := by decide

/-- Witness for C2 on the `solid facet` bytes. -/
theorem ascii_empty_falls_back_to_binary_witness :
    read_stl_model exSolidFacet = read_stl_binary_model exSolidFacet :=
  ascii_empty_falls_back_to_binary exSolidFacet (by decide) (by decide)

/-- C4: a binary buffer of at least 84 bytes whose declared count would
read past the end is clamped to the number of complete 50-byte records
available: exactly that many triangles are parsed, and the empty-mesh
error occurs exactly when zero complete records remain. -/
theorem binary_count_clamped (data : List ℕ)
    (h1 : 84 ≤ data.length)
    (h2 : data.length < 84 + leU32 data 80 * 50) :
    read_stl_binary_model data =
      (if availRecords data = 0 then .error .emptyMeshBinary
       else .ok (binLoop data (availRecords data) 84 [])) ∧
    (binLoop data (availRecords data) 84 []).length = availRecords data := by
  have hb : 84 + 50 * availRecords data ≤ data.length := by
    unfold availRecords
    omega
  have hlen := binLoop_length data (availRecords data) 84 [] hb
  simp only [List.length_nil, Nat.zero_add] at hlen
  refine ⟨?_, hlen⟩
  unfold read_stl_binary_model
  rw [if_neg (by omega)]
  have hcl : 84 + leU32 data 80 * 50 > data.length := by omega
  simp only [hcl, if_true, if_pos hcl]
  have havail : (data.length - 84) / 50 = availRecords data := rfl
  rw [havail]
  rcases Nat.eq_zero_or_pos (availRecords data) with h0 | hpos
  · have hnil : binLoop data (availRecords data) 84 [] = [] :=
      List.length_eq_zero.mp (by rw [hlen, h0])
    rw [hnil, h0]
    rfl
  · have hne : availRecords data ≠ 0 := by omega
    rw [if_neg hne]
    have hE : (binLoop data (availRecords data) 84 []).isEmpty = false := by
      cases hq : binLoop data (availRecords data) 84 [] with
      | nil => rw [hq] at hlen; simp at hlen; omega
      | cons hd tl => rfl
    rw [hE]
    rfl

set_option maxRecDepth 4000 in
/-- Witness for C4: an 84+50-byte buffer declaring 100 triangles parses
exactly one. -/
theorem binary_count_clamped_witness :
    read_stl_binary_model (List.replicate 80 0 ++ [100, 0, 0, 0] ++ List.replicate 50 0) =
      (if availRecords (List.replicate 80 0 ++ [100, 0, 0, 0] ++ List.replicate 50 0) = 0
       then .error .emptyMeshBinary
       else .ok (binLoop (List.replicate 80 0 ++ [100, 0, 0, 0] ++ List.replicate 50 0)
         (availRecords (List.replicate 80 0 ++ [100, 0, 0, 0] ++ List.replicate 50 0)) 84 [])) ∧
    (binLoop (List.replicate 80 0 ++ [100, 0, 0, 0] ++ List.replicate 50 0)
      (availRecords (List.replicate 80 0 ++ [100, 0, 0, 0] ++ List.replicate 50 0)) 84 []).length =
      availRecords (List.replicate 80 0 ++ [100, 0, 0, 0] ++ List.replicate 50 0) :=
  binary_count_clamped (List.replicate 80 0 ++ [100, 0, 0, 0] ++ List.replicate 50 0)
    (by decide) (by decide)

/-- C5: every input routed to the binary parser (the detection rule fails
or the ASCII attempt fails) that is shorter than 84 bytes makes loading
fail with the file-too-small format error, and the render produces no
output image: the pipeline-and-save step after parsing never runs. -/
theorem short_binary_input_no_output (data : List ℕ)
    (h1 : (detectAscii data && isOkE (read_stl_ascii_model (utf8Decode data))) = false)
    (h2 : data.length < 84) :
    read_stl_model data = .error .fileTooSmall ∧
    ∀ g : List Tri → List RGB, render_model g data = .error .fileTooSmall := by
  have hbin : read_stl_binary_model data = .error .fileTooSmall := by
    unfold read_stl_binary_model
    rw [if_pos h2]
  have hm : read_stl_model data = .error .fileTooSmall := by
    unfold read_stl_model
    cases hd : detectAscii data with
    | false => simp [hbin]
    | true =>
      rw [hd] at h1
      simp only [Bool.true_and] at h1
      cases hA : read_stl_ascii_model (utf8Decode data) with
      | error e => simp [hA, hbin]
      | ok t => rw [hA] at h1; simp [isOkE] at h1
  exact ⟨hm, fun g => by simp [render_model, hm, Except.map]⟩

/-- Witness for C5 on the empty byte stream. -/
theorem short_binary_input_no_output_witness :
    read_stl_model [] = .error .fileTooSmall ∧
    render_model (fun _ => []) [] = .error .fileTooSmall := by
  have h := short_binary_input_no_output [] (by decide) (by decide)
  exact ⟨h.1, h.2 (fun _ => [])⟩

/-- C7: the depth-tested line rasterizer leaves the depth buffer (and the
canvas size) entirely unchanged, and changes pixel colors only at
in-bounds pixels hit by some interpolation step whose interpolated depth
passes the strict depth test against the existing buffer value. -/
theorem draw_line_never_writes_depth (cv : Canvas) (p0 p1 : ℚ × ℚ × ℚ)
    (color : RGB) (alpha : ℚ) :
    (draw_line_z cv p0 p1 color alpha).zbuf = cv.zbuf ∧
    (draw_line_z cv p0 p1 color alpha).size = cv.size ∧
    ∀ X Y : ℤ, (draw_line_z cv p0 p1 color alpha).pix X Y ≠ cv.pix X Y →
      0 ≤ X ∧ X < cv.size ∧ 0 ≤ Y ∧ Y < cv.size ∧
      ∃ i : ℕ, i ≤ (lineSteps p0 p1).toNat ∧
        pyRound (lineAt p0 p1 i).1 = X ∧ pyRound (lineAt p0 p1 i).2.1 = Y ∧
        depthLT (lineAt p0 p1 i).2.2 (cv.zbuf Y X) = true := by
  have hres : ∀ c2 : Canvas, c2 = draw_line_z cv p0 p1 color alpha →
      c2.zbuf = cv.zbuf ∧ c2.size = cv.size ∧
      ∀ X Y : ℤ, c2.pix X Y ≠ cv.pix X Y →
        0 ≤ X ∧ X < cv.size ∧ 0 ≤ Y ∧ Y < cv.size ∧
        ∃ i : ℕ, i ≤ (lineSteps p0 p1).toNat ∧
          pyRound (lineAt p0 p1 i).1 = X ∧ pyRound (lineAt p0 p1 i).2.1 = Y ∧
          depthLT (lineAt p0 p1 i).2.2 (cv.zbuf Y X) = true := by
    intro c2 hc2
    subst hc2
    simp only [draw_line_z]
    split_ifs with h1 h2
    · exact ⟨rfl, rfl, fun X Y hne => absurd rfl hne⟩
    · exact ⟨rfl, rfl, fun X Y hne => absurd rfl hne⟩
    · apply foldl_inv_mem
        (fun c => c.zbuf = cv.zbuf ∧ c.size = cv.size ∧
          ∀ X Y : ℤ, c.pix X Y ≠ cv.pix X Y →
            0 ≤ X ∧ X < cv.size ∧ 0 ≤ Y ∧ Y < cv.size ∧
            ∃ i : ℕ, i ≤ (lineSteps p0 p1).toNat ∧
              pyRound (lineAt p0 p1 i).1 = X ∧ pyRound (lineAt p0 p1 i).2.1 = Y ∧
              depthLT (lineAt p0 p1 i).2.2 (cv.zbuf Y X) = true)
        (lineStep p0 p1 color (clamp01 alpha))
      · intro c i hi hc
        have hi2 : i ≤ (lineSteps p0 p1).toNat := by
          rw [List.mem_range] at hi
          omega
        unfold lineStep
        split_ifs with hb hz
        · exact hc
        · exact hc
        · refine ⟨hc.1, hc.2.1, ?_⟩
          intro X Y hne
          by_cases hxy : X = pyRound (lineAt p0 p1 i).1 ∧ Y = pyRound (lineAt p0 p1 i).2.1
          · obtain ⟨hX, hY⟩ := hxy
            subst hX
            subst hY
            push_neg at hb
            obtain ⟨hb1, hb2, hb3, hb4⟩ := hb
            rcases Bool.eq_false_or_eq_true
              (depthLT (lineAt p0 p1 i).2.2
                (c.zbuf (pyRound (lineAt p0 p1 i).2.1) (pyRound (lineAt p0 p1 i).1))) with hB | hB
            · rw [hc.1] at hB
              refine ⟨hb1, ?_, hb3, ?_, i, hi2, rfl, rfl, hB⟩
              · rw [← hc.2.1]
                exact hb2
              · rw [← hc.2.1]
                exact hb4
            · exact absurd hB hz
          · have hpx : (setPix c (pyRound (lineAt p0 p1 i).1) (pyRound (lineAt p0 p1 i).2.1)
                (blend_rgb (c.pix (pyRound (lineAt p0 p1 i).1) (pyRound (lineAt p0 p1 i).2.1))
                  color (clamp01 alpha))).pix X Y = c.pix X Y := by
              unfold setPix
              exact if_neg hxy
            rw [hpx] at hne
            exact hc.2.2 X Y hne
      · exact ⟨rfl, rfl, fun X Y hne => absurd rfl hne⟩
  exact hres _ rfl

/-- Witness for C7: a horizontal two-pixel line on a fresh canvas changes
the pixel `(1, 0)`, which is in bounds and hit by step 1 with depth `-1`
passing against the infinite initial buffer. -/
theorem draw_line_never_writes_depth_witness :
    0 ≤ (1 : ℤ) ∧ (1 : ℤ) < (initCanvas 2 ⟨0, 0, 0⟩).size ∧
    0 ≤ (0 : ℤ) ∧ (0 : ℤ) < (initCanvas 2 ⟨0, 0, 0⟩).size ∧
    ∃ i : ℕ, i ≤ (lineSteps ((0 : ℚ), (0 : ℚ), (-1 : ℚ)) ((1 : ℚ), (0 : ℚ), (-1 : ℚ))).toNat ∧
      pyRound (lineAt ((0 : ℚ), (0 : ℚ), (-1 : ℚ)) ((1 : ℚ), (0 : ℚ), (-1 : ℚ)) i).1 = 1 ∧
      pyRound (lineAt ((0 : ℚ), (0 : ℚ), (-1 : ℚ)) ((1 : ℚ), (0 : ℚ), (-1 : ℚ)) i).2.1 = 0 ∧
      depthLT (lineAt ((0 : ℚ), (0 : ℚ), (-1 : ℚ)) ((1 : ℚ), (0 : ℚ), (-1 : ℚ)) i).2.2
        ((initCanvas 2 ⟨0, 0, 0⟩).zbuf 0 1) = true :=
  (draw_line_never_writes_depth (initCanvas 2 ⟨0, 0, 0⟩) ((0 : ℚ), (0 : ℚ), (-1 : ℚ))
    ((1 : ℚ), (0 : ℚ), (-1 : ℚ)) ⟨255, 255, 255⟩ 1).2.2 1 0 (by
      norm_num [draw_line_z, lineStep, lineAt, lineSteps, pyInt, pyRound, clamp01,
        depthLT, setPix, blend_rgb, initCanvas, List.range_succ])

/-- C8: for every input triangle list the normalizer output satisfies the
mesh invariant: every index in every face triple is a valid index into
the vertex sequence, and the normal sequence has the same length as the
vertex sequence (the normal at index `i` is the normalized accumulator of
the vertex at index `i` by construction). -/
theorem mesh_normalizer_invariants (s : ℚ → ℚ) (tris : List Tri) :
    (build_vertex_normals s tris).2.2.length = (build_vertex_normals s tris).1.length ∧
    ∀ fc ∈ (build_vertex_normals s tris).2.1,
      fc.1 < (build_vertex_normals s tris).1.length ∧
      fc.2.1 < (build_vertex_normals s tris).1.length ∧
      fc.2.2 < (build_vertex_normals s tris).1.length := by
  have h : BVNInv (tris.foldl (bvnStep s) ⟨[], [], []⟩) :=
    foldl_inv_mem BVNInv (bvnStep s) tris
      (fun st t _ hst => bvnStep_inv s st t hst) ⟨[], [], []⟩ ⟨rfl, by simp⟩
  unfold build_vertex_normals
  exact ⟨by simpa using h.1, h.2⟩

/-- Witness for C8 on a one-triangle mesh: the emitted face `(0, 1, 2)`
indexes the three deduplicated vertices. -/
theorem mesh_normalizer_invariants_witness :
    (0 : ℕ) < (build_vertex_normals (fun q => q)
      [⟨⟨0, 0, 0⟩, ⟨1, 0, 0⟩, ⟨0, 1, 0⟩⟩]).1.length ∧
    (1 : ℕ) < (build_vertex_normals (fun q => q)
      [⟨⟨0, 0, 0⟩, ⟨1, 0, 0⟩, ⟨0, 1, 0⟩⟩]).1.length ∧
    (2 : ℕ) < (build_vertex_normals (fun q => q)
      [⟨⟨0, 0, 0⟩, ⟨1, 0, 0⟩, ⟨0, 1, 0⟩⟩]).1.length :=
  (mesh_normalizer_invariants (fun q => q)
    [⟨⟨0, 0, 0⟩, ⟨1, 0, 0⟩, ⟨0, 1, 0⟩⟩]).2 (0, 1, 2) (by decide)

/-- C10: every depth-buffer entry starts at `+inf` and is monotonically
non-increasing through a render: each drawing operation either leaves it
unchanged or — only when the operation is a mesh-face rasterization —
overwrites it with a written depth that is strictly smaller than the old
entry; the screen-space grid and the depth-tested lines never write it. -/
theorem depth_buffer_monotone (s : ℚ → ℚ) (size : ℤ) (bg : RGB) (cv : Canvas)
    (op : DrawOp) (X Y : ℤ) :
    (initCanvas size bg).zbuf Y X = none ∧
    ((applyOp s op cv).zbuf Y X = cv.zbuf Y X ∨
      (op.isFace = true ∧ ∃ z : ℚ, (applyOp s op cv).zbuf Y X = some z ∧
        depthLT z (cv.zbuf Y X) = true)) := by
  refine ⟨rfl, ?_⟩
  cases op with
  | grid bg2 gcol step alpha =>
    left
    show (draw_grid cv bg2 gcol step alpha).zbuf Y X = cv.zbuf Y X
    rw [draw_grid_zbuf]
  | line p0 p1 color alpha =>
    left
    show (draw_line_z cv p0 p1 color alpha).zbuf Y X = cv.zbuf Y X
    rw [draw_line_z_zbuf]
  | face twoSided f light base a b c na nb nc =>
    have h : zPres cv (rasterFace s twoSided f light base a b c na nb nc cv) X Y := by
      simp only [rasterFace]
      split_ifs with h1 h2 h3 h4
      · exact Or.inl rfl
      · exact Or.inl rfl
      · exact Or.inl rfl
      · exact Or.inl rfl
      · refine foldl_inv_mem (zPres cv · X Y) _ _ ?_ cv (Or.inl rfl)
        intro cy py _ hcy
        refine foldl_inv_mem (zPres cv · X Y) _ _ ?_ cy hcy
        intro cx px _ hcx
        exact facePixel_zPres s _ _ _ _ _ _ _ _ _ _ na nb nc light base px py X Y cv cx hcx
    rcases h with heq | ⟨z, hz, hlt⟩
    · left
      exact heq
    · right
      exact ⟨rfl, z, hz, hlt⟩

/-- C1 (divergence witness): two triangles cover pixel `(0, 1)` from a
fresh buffer, one at camera-space depth `z = -2` (two units in front of
the camera, which sits at the origin looking down negative z) and one at
`z = -10` (ten units away, hence farther); their shaded colors differ.
In both draw orders the final pixel color is the farther triangle's
shaded color `(40, 20, 10)`, not the nearer one's `(200, 100, 50)`:
the depth test `z >= zbuf → skip` keeps the smallest camera-space z,
which is the farthest surface, inverting the intended closest-wins
z-buffer semantics. -/
theorem depth_test_keeps_farther_triangle :
    (facePixel (fun q => q) 0 1 1 1 0 0 (-1) (-10) (-10) (-10)
        ⟨0, 0, -1⟩ ⟨0, 0, -1⟩ ⟨0, 0, -1⟩ ⟨0, 0, 1⟩ ⟨200, 100, 50⟩ 0 1
        (facePixel (fun q => q) 0 1 1 1 0 0 (-1) (-2) (-2) (-2)
          ⟨0, 0, 1⟩ ⟨0, 0, 1⟩ ⟨0, 0, 1⟩ ⟨0, 0, 1⟩ ⟨200, 100, 50⟩ 0 1
          (initCanvas 2 ⟨0, 0, 0⟩))).pix 0 1 = ⟨40, 20, 10⟩ ∧
    (facePixel (fun q => q) 0 1 1 1 0 0 (-1) (-2) (-2) (-2)
        ⟨0, 0, 1⟩ ⟨0, 0, 1⟩ ⟨0, 0, 1⟩ ⟨0, 0, 1⟩ ⟨200, 100, 50⟩ 0 1
        (facePixel (fun q => q) 0 1 1 1 0 0 (-1) (-10) (-10) (-10)
          ⟨0, 0, -1⟩ ⟨0, 0, -1⟩ ⟨0, 0, -1⟩ ⟨0, 0, 1⟩ ⟨200, 100, 50⟩ 0 1
          (initCanvas 2 ⟨0, 0, 0⟩))).pix 0 1 = ⟨40, 20, 10⟩ ∧
    shadePx (fun q => q) 0 1 1 1 0 0 0 1 (-1)
      ⟨0, 0, -1⟩ ⟨0, 0, -1⟩ ⟨0, 0, -1⟩ ⟨0, 0, 1⟩ ⟨200, 100, 50⟩ = ⟨40, 20, 10⟩ ∧
    shadePx (fun q => q) 0 1 1 1 0 0 0 1 (-1)
      ⟨0, 0, 1⟩ ⟨0, 0, 1⟩ ⟨0, 0, 1⟩ ⟨0, 0, 1⟩ ⟨200, 100, 50⟩ = ⟨200, 100, 50⟩ ∧
    ((⟨40, 20, 10⟩ : RGB) ≠ ⟨200, 100, 50⟩) := by
  norm_num [facePixel, baryW0, baryW1, interpZ, interpN, shadePx, depthLT, initCanvas,
    v_norm, v_len, v_dot, shadedColor, shadeOf, clamp01, pyInt, setPix]

end Rstl
